import Mathlib

/-!
Verification development for the PAIMON-RoleRAG knowledge-graph pipeline.

The Python source is shallowly embedded as follows.
Python dicts (which preserve insertion order) become association lists
over `String` keys; entity records become the `Entity` structure whose
fields default to the empty string or empty list, matching the defaults
used by the `dict.get` calls in the source; the TF-IDF cosine-similarity
matrix produced by the external sklearn library is passed to the
deduplication code as an abstract function `sim : Nat -> Nat -> Rat`
over entity indices, exactly as the grouping loop of
`find_duplicate_entities` consumes it; fallible dictionary accesses
(Python `KeyError`) surface as `Option`.
-/

namespace PaimonRoleRag

/-! ## Association-list model of a Python dict (insertion-ordered) -/

/-- Lookup of the first binding of a key, mirroring Python dict access. -/
def assocLookup {β : Type} : List (String × β) → String → Option β
  | [], _ => none
  | p :: rest, k => if p.1 = k then some p.2 else assocLookup rest k

/-- Removal of a key, mirroring Python `del d[k]` on a dict with unique keys. -/
def assocErase {β : Type} (l : List (String × β)) (k : String) : List (String × β) :=
  l.filter (fun p => decide (p.1 ≠ k))

/-- In-place value replacement for an existing key; a Python dict keeps the
original position of a key when its value is reassigned. -/
def assocUpdate {β : Type} (l : List (String × β)) (k : String) (v : β) : List (String × β) :=
  l.map (fun p => if p.1 = k then (k, v) else p)

/-- Assignment `d[k] = v` on a Python dict: overwrite in place when the key
exists, append at the end otherwise. -/
def assocUpsert {β : Type} (l : List (String × β)) (k : String) (v : β) : List (String × β) :=
  if (assocLookup l k).isSome then assocUpdate l k v else l ++ [(k, v)]

/-! ## Data model (models/schema.py and the raw dicts of kg_builder.py) -/

/-- Entity record as stored in `KnowledgeGraphBuilder.entities`. Fields the
source reads through `dict.get` with a default carry that default here. -/
structure Entity where
  type : String
  persona : String := ""
  style_description : String := ""
  style_exemplars : List String := []
  description : String := ""
  avatarDetail : String := ""
deriving Repr, DecidableEq

/-- Relationship record (models/schema.py `Relationship`). -/
structure Rel where
  source : String
  target : String
  description : String := ""
  attitude : Option String := none
  strength : ℚ := mkRat 1 2
deriving Repr, DecidableEq

/-! ## Deduplication (kg_builder.py, KnowledgeGraphBuilder) -/

/-- Grouping loop of `find_duplicate_entities` (kg_builder.py lines 73-92).
For each index in order, when its name is not yet processed, `np.where`
collects in ascending index order every entity whose similarity meets the
threshold; a group of size above one is recorded under its first member
as canonical and all members are marked processed. -/
def find_groups (sim : Nat → Nat → ℚ) (names : List String) (threshold : ℚ) :
    List Nat → List String → List (String × List String)
  | [], _ => []
  | i :: rest, processed =>
    if names.getD i "" ∈ processed then find_groups sim names threshold rest processed
    else
      let similar := (List.range names.length).filter (fun j => decide (threshold ≤ sim i j))
      if 1 < similar.length then
        let group := similar.map (fun j => names.getD j "")
        (group.headD "", group.tail) ::
          find_groups sim names threshold rest (processed ++ group)
      else find_groups sim names threshold rest processed

/-- Embedding of `KnowledgeGraphBuilder.find_duplicate_entities`. The TF-IDF
cosine-similarity matrix computed by sklearn (lines 58-71 of the source) is
the external input `sim`; stores with fewer than two entities return the
empty grouping immediately, as in the source. -/
def find_duplicate_entities (sim : Nat → Nat → ℚ) (entities : List (String × Entity))
    (threshold : ℚ) : List (String × List String) :=
  let names := entities.map Prod.fst
  if names.length < 2 then []
  else find_groups sim names threshold (List.range names.length) []

/-- Exemplar merge of `merge_duplicate_entities` (kg_builder.py lines 124-129):
each exemplar of the duplicate is appended when not already present. -/
def merge_exemplars (canonical : List String) (dup : List String) : List String :=
  dup.foldl (fun acc ex => if ex ∈ acc then acc else acc ++ [ex]) canonical

/-- Field merge for one canonical/duplicate pair (kg_builder.py lines 114-133):
character entities keep the strictly longer persona and style description and
merge exemplar lists; other entities keep the strictly longer description. -/
def merge_one_dup (ce de : Entity) : Entity :=
  if ce.type = "character" then
    { ce with
      persona := if ce.persona.length < de.persona.length then de.persona else ce.persona,
      style_description :=
        if ce.style_description.length < de.style_description.length then de.style_description
        else ce.style_description,
      style_exemplars := merge_exemplars ce.style_exemplars de.style_exemplars }
  else
    { ce with
      description :=
        if ce.description.length < de.description.length then de.description
        else ce.description }

/-- Inner duplicate loop of `merge_duplicate_entities` for one group: each
duplicate is looked up (`KeyError`, i.e. `none`, when absent), merged into the
canonical entity, the updated canonical is written back and the duplicate is
deleted. The running canonical value mirrors the mutable reference
`canonical_entity` of the source. -/
def merge_group_dups (canonical : String) :
    List (String × Entity) → Entity → List String → Option (List (String × Entity))
  | store, _, [] => some store
  | store, ce, d :: rest =>
    match assocLookup store d with
    | none => none
    | some de =>
      let ce2 := merge_one_dup ce de
      merge_group_dups canonical (assocErase (assocUpdate store canonical ce2) d) ce2 rest

/-- Outer group loop of `merge_duplicate_entities` (kg_builder.py lines
107-136): the canonical entity of each group is fetched (raising, i.e.
`none`, when it has already been deleted by an earlier group) and every
duplicate of the group is merged into it. -/
def merge_groups : List (String × Entity) → List (String × List String) →
    Option (List (String × Entity))
  | store, [] => some store
  | store, (canonical, ds) :: rest =>
    match assocLookup store canonical with
    | none => none
    | some ce =>
      match merge_group_dups canonical store ce ds with
      | none => none
      | some store2 => merge_groups store2 rest

/-- Duplicate-to-canonical map of `merge_duplicate_entities` (lines 101-105). -/
def duplicate_to_canonical (dups : List (String × List String)) : List (String × String) :=
  dups.foldl (fun m p => p.2.foldl (fun m2 d => assocUpsert m2 d p.1) m) []

/-- Name remap `duplicate_to_canonical.get(name, name)`. -/
def lookup_canonical (m : List (String × String)) (s : String) : String :=
  (assocLookup m s).getD s

/-- Relationship rewrite of `merge_duplicate_entities` (lines 138-153):
endpoints are remapped duplicate-to-canonical and relationships whose
remapped endpoints coincide are dropped. -/
def rewrite_relationships (m : List (String × String)) (rels : List Rel) : List Rel :=
  rels.foldl (fun acc r =>
    let s := lookup_canonical m r.source
    let t := lookup_canonical m r.target
    if s = t then acc else acc ++ [{ r with source := s, target := t }]) []

/-- Embedding of `KnowledgeGraphBuilder.merge_duplicate_entities`; `none`
models the `KeyError` the source raises when a group references an entity
that is no longer in the store. -/
def merge_duplicate_entities (dups : List (String × List String))
    (store : List (String × Entity)) (rels : List Rel) :
    Option (List (String × Entity) × List Rel) :=
  match merge_groups store dups with
  | none => none
  | some store2 => some (store2, rewrite_relationships (duplicate_to_canonical dups) rels)

/-! ## Concrete dedup inputs used by the claims -/

/-- Store of three character entities named a, b, c with personas
`xx yy yy`, `xx yy` and `xx xx yy`. Single-character names are dropped by
the sklearn tokenizer (its token pattern keeps words of two or more
characters) and every token occurs in every document, so all smoothed IDF
weights equal 1 and the cosine similarities are exactly the raw-count
cosines: sim(a,b) = sim(b,c) = 3 / sqrt 10 and sim(a,c) = 4 / 5. -/
def chainStore : List (String × Entity) :=
  [("a", { type := "character", persona := "xx yy yy" }),
   ("b", { type := "character", persona := "xx yy" }),
   ("c", { type := "character", persona := "xx xx yy" })]

/-- Rational stand-in for the similarity matrix of `chainStore`. The source
only compares similarities against the threshold 17/20, and the comparison
pattern of the true values is decided exactly: 3 / sqrt 10 is at least
17/20 because 9 * 400 is at least 289 * 10, while 4/5 is below 17/20; the
stand-in 19/20 reproduces that pattern. -/
def simChain : Nat → Nat → ℚ := fun i j =>
  if i = j then 1
  else if (i = 0 ∧ j = 1) ∨ (i = 1 ∧ j = 0) ∨ (i = 1 ∧ j = 2) ∨ (i = 2 ∧ j = 1) then mkRat 19 20
  else mkRat 4 5

/-- Claim C1. Deduplication is not idempotent on this code: on `chainStore`
with threshold 17/20, `find_duplicate_entities` returns the overlapping
groups a maps-to [b] and b maps-to [c] (the second canonical b is itself a
duplicate of the first group), and `merge_duplicate_entities` on exactly
those groups raises `KeyError` (modelled by `none`) because b has already
been deleted when its own group is processed, so the find-merge-find round
trip promised by the claim never completes. -/
theorem dedup_chain_merge_crashes :
    find_duplicate_entities simChain chainStore (mkRat 17 20) = [("a", ["b"]), ("b", ["c"])] ∧
    merge_duplicate_entities [("a", ["b"]), ("b", ["c"])] chainStore [] = none := by
  constructor <;> decide

/-! ## Association-list lemmas -/

theorem assocLookup_nil {β : Type} (k : String) : assocLookup ([] : List (String × β)) k = none :=
  rfl

theorem assocLookup_cons {β : Type} (p : String × β) (rest : List (String × β)) (k : String) :
    assocLookup (p :: rest) k = if p.1 = k then some p.2 else assocLookup rest k :=
  rfl

theorem assocErase_cons {β : Type} (p : String × β) (rest : List (String × β)) (k : String) :
    assocErase (p :: rest) k = if p.1 = k then assocErase rest k else p :: assocErase rest k := by
  by_cases h : p.1 = k <;> simp [assocErase, List.filter_cons, h]

theorem assocLookup_erase_ne {β : Type} (l : List (String × β)) {k k2 : String} (h : k ≠ k2) :
    assocLookup (assocErase l k2) k = assocLookup l k := by
  induction l with
  | nil => rfl
  | cons p rest ih =>
    rw [assocErase_cons]
    by_cases hp : p.1 = k2
    · have hpk : p.1 ≠ k := by rw [hp]; exact fun hk => h hk.symm
      rw [if_pos hp, ih, assocLookup_cons, if_neg hpk]
    · rw [if_neg hp, assocLookup_cons, assocLookup_cons, ih]

theorem assocLookup_erase_self {β : Type} (l : List (String × β)) (k : String) :
    assocLookup (assocErase l k) k = none := by
  induction l with
  | nil => rfl
  | cons p rest ih =>
    rw [assocErase_cons]
    by_cases hp : p.1 = k
    · simp [hp, ih]
    · simp [assocLookup_cons, hp, ih]

theorem assocErase_of_not_mem {β : Type} (l : List (String × β)) (k : String)
    (h : k ∉ l.map Prod.fst) : assocErase l k = l := by
  induction l with
  | nil => rfl
  | cons p rest ih =>
    simp only [List.map_cons, List.mem_cons] at h
    push_neg at h
    rw [assocErase_cons, if_neg (fun hp => h.1 hp.symm), ih h.2]

theorem assocErase_length {β : Type} (l : List (String × β)) (k : String) (v : β)
    (hnd : (l.map Prod.fst).Nodup) (hl : assocLookup l k = some v) :
    (assocErase l k).length + 1 = l.length := by
  induction l with
  | nil => simp [assocLookup_nil] at hl
  | cons p rest ih =>
    simp only [List.map_cons, List.nodup_cons] at hnd
    rw [assocErase_cons]
    by_cases hp : p.1 = k
    · rw [if_pos hp, assocErase_of_not_mem rest k (hp ▸ hnd.1)]
      simp
    · rw [assocLookup_cons, if_neg hp] at hl
      simp only [if_neg hp, List.length_cons]
      rw [ih hnd.2 hl]

theorem assocUpdate_map_fst {β : Type} (l : List (String × β)) (k : String) (v : β) :
    (assocUpdate l k v).map Prod.fst = l.map Prod.fst := by
  induction l with
  | nil => rfl
  | cons p rest ih =>
    simp only [assocUpdate, List.map_cons] at *
    by_cases hp : p.1 = k
    · simp [hp, ih]
    · simp [hp, ih]

theorem assocUpdate_length {β : Type} (l : List (String × β)) (k : String) (v : β) :
    (assocUpdate l k v).length = l.length := by
  simp [assocUpdate]

theorem assocLookup_update_self {β : Type} (l : List (String × β)) {k : String} {v0 : β}
    (v : β) (h : assocLookup l k = some v0) :
    assocLookup (assocUpdate l k v) k = some v := by
  induction l with
  | nil => simp [assocLookup_nil] at h
  | cons p rest ih =>
    rw [assocLookup_cons] at h
    by_cases hp : p.1 = k
    · simp [assocUpdate, hp, assocLookup_cons]
    · rw [if_neg hp] at h
      simpa [assocUpdate, hp, assocLookup_cons] using ih h

theorem assocUpdate_cons {β : Type} (p : String × β) (rest : List (String × β)) (k : String)
    (v : β) :
    assocUpdate (p :: rest) k v = (if p.1 = k then (k, v) else p) :: assocUpdate rest k v :=
  rfl

theorem assocLookup_update_ne {β : Type} (l : List (String × β)) {k k2 : String} (v : β)
    (h : k ≠ k2) : assocLookup (assocUpdate l k2 v) k = assocLookup l k := by
  induction l with
  | nil => rfl
  | cons p rest ih =>
    rw [assocUpdate_cons]
    by_cases hp : p.1 = k2
    · have hpk : p.1 ≠ k := by rw [hp]; exact fun hk => h hk.symm
      rw [if_pos hp, assocLookup_cons, assocLookup_cons]
      rw [if_neg (fun hk => h hk.symm), if_neg hpk, ih]
    · rw [if_neg hp, assocLookup_cons, assocLookup_cons, ih]

/-! ## Exemplar-merge lemmas -/

theorem merge_exemplars_cons (acc : List String) (x : String) (l : List String) :
    merge_exemplars acc (x :: l) =
      merge_exemplars (if x ∈ acc then acc else acc ++ [x]) l := by
  by_cases h : x ∈ acc <;> simp [merge_exemplars, List.foldl_cons, h]

theorem merge_exemplars_prefix (l acc : List String) : acc <+: merge_exemplars acc l := by
  induction l generalizing acc with
  | nil => exact List.prefix_rfl
  | cons x rest ih =>
    rw [merge_exemplars_cons]
    by_cases h : x ∈ acc
    · rw [if_pos h]; exact ih acc
    · rw [if_neg h]
      exact List.IsPrefix.trans (List.prefix_append acc [x]) (ih (acc ++ [x]))

theorem merge_exemplars_mem (l acc : List String) (x : String) :
    x ∈ merge_exemplars acc l ↔ x ∈ acc ∨ x ∈ l := by
  induction l generalizing acc with
  | nil => simp [merge_exemplars]
  | cons y rest ih =>
    rw [merge_exemplars_cons]
    by_cases h : y ∈ acc
    · rw [if_pos h, ih]
      constructor
      · rintro (hx | hx)
        · exact Or.inl hx
        · exact Or.inr (List.mem_cons_of_mem y hx)
      · rintro (hx | hx)
        · exact Or.inl hx
        · rcases List.mem_cons.mp hx with rfl | hx
          · exact Or.inl h
          · exact Or.inr hx
    · rw [if_neg h, ih]
      simp only [List.mem_append, List.mem_singleton, List.mem_cons]
      tauto

theorem merge_exemplars_nodup (l acc : List String) (h : acc.Nodup) :
    (merge_exemplars acc l).Nodup := by
  induction l generalizing acc with
  | nil => exact h
  | cons y rest ih =>
    rw [merge_exemplars_cons]
    by_cases hy : y ∈ acc
    · rw [if_pos hy]; exact ih acc h
    · rw [if_neg hy]
      exact ih (acc ++ [y]) (by simp [List.nodup_append, h, hy])

/-! ## Concrete stores for the merge-policy claims -/

/-- Scenario store of the spec: Alice with persona `A hero` and Alicia with
persona `A heroine`, both characters. -/
def aliceStore : List (String × Entity) :=
  [("Alice", { type := "character", persona := "A hero" }),
   ("Alicia", { type := "character", persona := "A heroine" })]

/-- Similarity matrix for `aliceStore`: the two entities have similarity
9/10, which is at least the threshold 17/20. -/
def simAlice : Nat → Nat → ℚ := fun i j => if i = j then 1 else mkRat 9 10

/-- Merged Alice entity: the longer persona `A heroine` survives under the
first-seen canonical name. -/
def aliceMerged : Entity := { type := "character", persona := "A heroine" }

/-- Claim C5 (amended). Merging one canonical/duplicate pair keeps the
canonical name, deletes the duplicate, keeps the strictly longer value of
each per-kind string field, prepends the canonical exemplars unchanged to
the not-yet-present duplicate exemplars (a duplicate-free union whenever the
canonical list itself is duplicate-free), and decreases the entity count by
exactly one; on the Alice/Alicia scenario the store merges to the single
entity Alice with persona `A heroine`. -/
theorem merge_pair_policy :
    (∀ (store : List (String × Entity)) (rels : List Rel) (cN dN : String) (ce de : Entity),
      (store.map Prod.fst).Nodup →
      assocLookup store cN = some ce →
      assocLookup store dN = some de →
      cN ≠ dN →
      ∃ out, merge_duplicate_entities [(cN, [dN])] store rels = some out ∧
        assocLookup out.1 cN = some (merge_one_dup ce de) ∧
        assocLookup out.1 dN = none ∧
        out.1.length + 1 = store.length ∧
        out.1.length ≤ store.length ∧
        (ce.type = "character" →
          ((merge_one_dup ce de).persona = ce.persona ∨
            (merge_one_dup ce de).persona = de.persona) ∧
          (merge_one_dup ce de).persona.length = max ce.persona.length de.persona.length ∧
          ((merge_one_dup ce de).style_description = ce.style_description ∨
            (merge_one_dup ce de).style_description = de.style_description) ∧
          (merge_one_dup ce de).style_description.length =
            max ce.style_description.length de.style_description.length ∧
          ce.style_exemplars <+: (merge_one_dup ce de).style_exemplars ∧
          (∀ x, x ∈ (merge_one_dup ce de).style_exemplars ↔
            x ∈ ce.style_exemplars ∨ x ∈ de.style_exemplars) ∧
          (ce.style_exemplars.Nodup → (merge_one_dup ce de).style_exemplars.Nodup)) ∧
        (ce.type ≠ "character" →
          ((merge_one_dup ce de).description = ce.description ∨
            (merge_one_dup ce de).description = de.description) ∧
          (merge_one_dup ce de).description.length =
            max ce.description.length de.description.length)) ∧
    find_duplicate_entities simAlice aliceStore (mkRat 17 20) = [("Alice", ["Alicia"])] ∧
    merge_duplicate_entities [("Alice", ["Alicia"])] aliceStore [] =
      some ([("Alice", aliceMerged)], []) ∧
    aliceMerged.persona = "A heroine" := by
  refine ⟨?_, by decide, by decide, by decide⟩
  intro store rels cN dN ce de hnd hc hd hne
  have hstep :
      merge_duplicate_entities [(cN, [dN])] store rels =
        some (assocErase (assocUpdate store cN (merge_one_dup ce de)) dN,
          rewrite_relationships (duplicate_to_canonical [(cN, [dN])]) rels) := by
    simp only [merge_duplicate_entities, merge_groups, merge_group_dups, hc, hd]
  refine ⟨_, hstep, ?_, ?_, ?_, ?_, ?_, ?_⟩
  · rw [assocLookup_erase_ne _ hne, assocLookup_update_self _ _ hc]
  · exact assocLookup_erase_self _ _
  · have hn2 : ((assocUpdate store cN (merge_one_dup ce de)).map Prod.fst).Nodup := by
      rw [assocUpdate_map_fst]; exact hnd
    have hd2 : assocLookup (assocUpdate store cN (merge_one_dup ce de)) dN = some de :=
      (assocLookup_update_ne _ _ (Ne.symm hne)).trans hd
    rw [assocErase_length _ _ _ hn2 hd2, assocUpdate_length]
  · have hn2 : ((assocUpdate store cN (merge_one_dup ce de)).map Prod.fst).Nodup := by
      rw [assocUpdate_map_fst]; exact hnd
    have hd2 : assocLookup (assocUpdate store cN (merge_one_dup ce de)) dN = some de :=
      (assocLookup_update_ne _ _ (Ne.symm hne)).trans hd
    have hlen := assocErase_length _ _ _ hn2 hd2
    rw [assocUpdate_length] at hlen
    show (assocErase (assocUpdate store cN (merge_one_dup ce de)) dN).length ≤ store.length
    omega
  · intro htype
    simp only [merge_one_dup, if_pos htype]
    refine ⟨?_, ?_, ?_, ?_, merge_exemplars_prefix _ _,
      fun x => merge_exemplars_mem _ _ x, fun h => merge_exemplars_nodup _ _ h⟩
    · by_cases hlen : ce.persona.length < de.persona.length
      · right; simp [hlen]
      · left; simp [hlen]
    · by_cases hlen : ce.persona.length < de.persona.length
      · simp only [if_pos hlen]
        exact (Nat.max_eq_right (le_of_lt hlen)).symm
      · simp only [if_neg hlen]
        exact (Nat.max_eq_left (le_of_not_lt hlen)).symm
    · by_cases hlen : ce.style_description.length < de.style_description.length
      · right; simp [hlen]
      · left; simp [hlen]
    · by_cases hlen : ce.style_description.length < de.style_description.length
      · simp only [if_pos hlen]
        exact (Nat.max_eq_right (le_of_lt hlen)).symm
      · simp only [if_neg hlen]
        exact (Nat.max_eq_left (le_of_not_lt hlen)).symm
  · intro htype
    simp only [merge_one_dup, if_neg htype]
    constructor
    · by_cases hlen : ce.description.length < de.description.length
      · right; simp [hlen]
      · left; simp [hlen]
    · by_cases hlen : ce.description.length < de.description.length
      · simp only [if_pos hlen]
        exact (Nat.max_eq_right (le_of_lt hlen)).symm
      · simp only [if_neg hlen]
        exact (Nat.max_eq_left (le_of_not_lt hlen)).symm

/-- Witness for the hypotheses of `merge_pair_policy`: its general part
applies to the concrete Alice/Alicia store. -/
theorem merge_pair_policy_witness :
    (merge_duplicate_entities [("Alice", ["Alicia"])] aliceStore []).isSome = true := by
  obtain ⟨out, h1, -⟩ :=
    merge_pair_policy.1 aliceStore [] "Alice" "Alicia"
      { type := "character", persona := "A hero" }
      { type := "character", persona := "A heroine" }
      (by decide) (by decide) (by decide) (by decide)
  rw [h1]
  rfl

/-- Store exhibiting that the merged exemplar list is not duplicate-free when
the canonical exemplar list already contains a repetition. -/
def dupCxStore : List (String × Entity) :=
  [("p", { type := "character", style_exemplars := ["xx", "xx"] }),
   ("q", { type := "character" })]

/-- Merged entity of `dupCxStore`: the repeated canonical exemplars survive. -/
def pMergedCx : Entity := { type := "character", style_exemplars := ["xx", "xx"] }

/-- Counterexample to claim C5 as stated: merging the pair p/q keeps the
repeated canonical exemplar list `[xx, xx]`, so the resulting
`style_exemplars` is not a duplicate-free union. -/
theorem merge_exemplars_not_dupfree :
    merge_duplicate_entities [("p", ["q"])] dupCxStore [] = some ([("p", pMergedCx)], []) ∧
    ¬ pMergedCx.style_exemplars.Nodup := by
  constructor <;> decide

/-! ## Claim C6: no self-loops after merge -/

/-- Accumulator invariant for the relationship rewrite loop. -/
theorem rewrite_relationships_no_self_loops (m : List (String × String)) :
    ∀ (rels acc : List Rel), (∀ r ∈ acc, r.source ≠ r.target) →
      ∀ r ∈ rels.foldl (fun acc r =>
          let s := lookup_canonical m r.source
          let t := lookup_canonical m r.target
          if s = t then acc else acc ++ [{ r with source := s, target := t }]) acc,
        r.source ≠ r.target := by
  intro rels
  induction rels with
  | nil => intro acc hacc r hr; exact hacc r hr
  | cons r0 rest ih =>
    intro acc hacc r hr
    rw [List.foldl_cons] at hr
    by_cases hst : lookup_canonical m r0.source = lookup_canonical m r0.target
    · simp only [hst, if_pos rfl] at hr
      exact ih acc hacc r hr
    · simp only [if_neg hst] at hr
      refine ih _ ?_ r hr
      intro r2 hr2
      rcases List.mem_append.mp hr2 with h2 | h2
      · exact hacc r2 h2
      · rcases List.mem_singleton.mp h2 with rfl
        exact hst

/-- Claim C6. Whenever `merge_duplicate_entities` completes, every
relationship in the resulting list has distinct endpoints: endpoints are
remapped duplicate-to-canonical and remapped self-loops are dropped. -/
theorem merge_no_self_loops (dups : List (String × List String))
    (store : List (String × Entity)) (rels : List Rel)
    (out : List (String × Entity) × List Rel)
    (h : merge_duplicate_entities dups store rels = some out) :
    ∀ r ∈ out.2, r.source ≠ r.target := by
  unfold merge_duplicate_entities at h
  cases hm : merge_groups store dups with
  | none => rw [hm] at h; exact absurd h (by simp)
  | some st2 =>
    rw [hm] at h
    have h2 : (st2, rewrite_relationships (duplicate_to_canonical dups) rels) = out :=
      Option.some.inj h
    rw [← h2]
    intro r hr
    unfold rewrite_relationships at hr
    exact rewrite_relationships_no_self_loops (duplicate_to_canonical dups) rels []
      (by intro r2 hr2; cases hr2) r hr

/-- Store used by the witness of `merge_no_self_loops`. -/
def c6Store : List (String × Entity) :=
  [("aa", { type := "non-character", description := "place" }),
   ("bb", { type := "non-character", description := "place two" })]

/-- Relationships used by the witness of `merge_no_self_loops`: the first
becomes a self-loop after remapping bb to aa and is dropped, the second
survives. -/
def c6Rels : List Rel :=
  [{ source := "aa", target := "bb", description := "near" },
   { source := "aa", target := "cc", description := "far" }]

/-- Witness for `merge_no_self_loops`: applied to a concrete merge whose
surviving relationship joins aa to cc. -/
theorem merge_no_self_loops_witness :
    ({ source := "aa", target := "cc", description := "far" } : Rel).source ≠
      ({ source := "aa", target := "cc", description := "far" } : Rel).target :=
  merge_no_self_loops [("aa", ["bb"])] c6Store c6Rels
    ((merge_duplicate_entities [("aa", ["bb"])] c6Store c6Rels).getD ([], []))
    (by decide) _ (by decide)

/-! ## Entity search (retrieval_agent.py, RetrievalAgent.search_entities)

The cosine-similarity row of the query against all entity texts is the
external sklearn input `sims`; the entity index is modelled as the list of
pairs of entity name and a flag telling whether the node is typed
character. `np.argsort` with its default unstable quicksort returns some
permutation of the indices that is ascending in similarity, with the order
of ties unspecified; the theorems below therefore quantify over every such
ascending order. The executable `argsort_desc` instantiation below fixes
ties by original index, the stable ascending order, which is also what
numpy computes on arrays short enough for its insertion-sort fallback;
it is used only to evaluate the search on the concrete inputs of this
file, all of which have at most three elements. -/

/-- Ascending comparison defining the executable `argsort` instantiation:
order by similarity value, breaking ties by the original index. This tie
choice is one of the orders `np.argsort` may produce (and the one it does
produce in its small-array insertion-sort regime); no general theorem
below depends on it. -/
def argLE (sims : List ℚ) (i j : Nat) : Prop :=
  sims.getD i 0 < sims.getD j 0 ∨ (sims.getD i 0 = sims.getD j 0 ∧ i ≤ j)

instance argLE.decidableRel (sims : List ℚ) : DecidableRel (argLE sims) := fun _ _ =>
  inferInstanceAs (Decidable (_ ∨ _))

instance argLE.isTotal (sims : List ℚ) : IsTotal Nat (argLE sims) := by
  constructor
  intro i j
  rcases lt_trichotomy (sims.getD i 0) (sims.getD j 0) with h | h | h
  · exact Or.inl (Or.inl h)
  · rcases Nat.le_total i j with hij | hij
    · exact Or.inl (Or.inr ⟨h, hij⟩)
    · exact Or.inr (Or.inr ⟨h.symm, hij⟩)
  · exact Or.inr (Or.inl h)

instance argLE.isTrans (sims : List ℚ) : IsTrans Nat (argLE sims) := by
  constructor
  intro i j k hij hjk
  rcases hij with h1 | ⟨h1, hi⟩
  · rcases hjk with h2 | ⟨h2, _⟩
    · exact Or.inl (h1.trans h2)
    · exact Or.inl (h2 ▸ h1)
  · rcases hjk with h2 | ⟨h2, hj⟩
    · exact Or.inl (h1 ▸ h2)
    · exact Or.inr ⟨h1.trans h2, hi.trans hj⟩

/-- Executable instantiation of `np.argsort(similarities)[::-1]`: indices
in the ascending order of `argLE`, reversed. It satisfies the two
properties numpy documents for an argsort result, being a permutation of
all indices that is ascending in similarity, as proved in
`search_entities_spec`. -/
def argsort_desc (sims : List ℚ) : List Nat :=
  (List.insertionSort (argLE sims) (List.range sims.length)).reverse

/-- Kind filter of `search_entities` (retrieval_agent.py lines 171-175):
kind character keeps character nodes, kind event keeps non-character nodes. -/
def entity_matches (ents : List (String × Bool)) (query_type : String) (idx : Nat) : Bool :=
  (decide (query_type = "character") && (ents.getD idx ("", false)).2) ||
    (decide (query_type = "event") && !(ents.getD idx ("", false)).2)

/-- Collection loop of `search_entities` (lines 166-178): the candidate pool
is scanned in order, matching names are appended, and the loop breaks once
`top_k` results have been collected. -/
def search_collect (ents : List (String × Bool)) (query_type : String) (top_k : Nat) :
    List Nat → List String → List String
  | [], acc => acc
  | idx :: rest, acc =>
    let acc2 := if entity_matches ents query_type idx
      then acc ++ [(ents.getD idx ("", false)).1] else acc
    if top_k ≤ acc2.length then acc2 else search_collect ents query_type top_k rest acc2

/-- Embedding of `RetrievalAgent.search_entities`: the top `top_k * 2`
indices of the descending similarity ranking are filtered by kind and the
first `top_k` survivors are returned. -/
def search_entities (sims : List ℚ) (ents : List (String × Bool)) (query_type : String)
    (top_k : Nat) : List String :=
  search_collect ents query_type top_k ((argsort_desc sims).take (top_k * 2)) []

/-- The same search pipeline over an arbitrary descending candidate ranking
`order`, standing for `np.argsort(similarities)[::-1]` whatever tie order
the unstable sort produced: truncate to `top_k * 2` candidates, then run
the kind-filtering collection loop. `search_entities` is this function at
the executable ranking `argsort_desc`. -/
def search_entities_from (order : List Nat) (ents : List (String × Bool))
    (query_type : String) (top_k : Nat) : List String :=
  search_collect ents query_type top_k (order.take (top_k * 2)) []

theorem search_collect_eq (ents : List (String × Bool)) (query_type : String) (top_k : Nat) :
    ∀ (pool : List Nat) (acc : List String), acc.length < top_k →
      search_collect ents query_type top_k pool acc =
        acc ++ (((pool.filter (entity_matches ents query_type)).map
          (fun i => (ents.getD i ("", false)).1)).take (top_k - acc.length)) := by
  intro pool
  induction pool with
  | nil => intro acc _; simp [search_collect]
  | cons idx rest ih =>
    intro acc hacc
    by_cases hm : entity_matches ents query_type idx
    · by_cases hk : top_k ≤ acc.length + 1
      · have hkeq : top_k = acc.length + 1 := le_antisymm hk hacc
        have h1 : top_k - acc.length = 1 := by omega
        simp only [search_collect, hm, if_true, List.filter_cons, List.map_cons, h1]
        rw [if_pos (by simp [hkeq])]
        simp
      · have hlt : acc.length + 1 < top_k := by omega
        have hsub : top_k - acc.length = (top_k - (acc.length + 1)) + 1 := by omega
        simp only [search_collect, hm, if_true, List.filter_cons, List.map_cons, hsub]
        rw [if_neg (by simp; omega)]
        rw [ih (acc ++ [(ents.getD idx ("", false)).1]) (by simp; omega)]
        simp [List.take_succ_cons, List.append_assoc]
    · simp only [search_collect, hm, Bool.false_eq_true, if_false, List.filter_cons]
      rw [if_neg (by omega)]
      rw [ih acc hacc]

/-- Claim C3 (amended). For every index order `np.argsort` may return, that
is any permutation of all entity indices ascending in similarity, the
reversed order ranks all entities by cosine similarity descending, and the
search over any such ranking restricts attention to the `2 * top_k`
highest-ranked candidates, filters them to the requested kind, and returns
the first `top_k` survivors; `search_entities` is this pipeline at the
executable `argsort_desc` ranking, which is itself one of the valid
ascending orders reversed. The order among entities of equal similarity is
not guaranteed by the program; on the concrete two-entity tie below, where
numpy resolves ties by its small-array stable insertion sort, the larger
original index is ranked first. -/
theorem search_entities_spec :
    (∀ (ents : List (String × Bool)) (query_type : String) (top_k : Nat)
        (order : List Nat),
      search_entities_from order ents query_type top_k =
        (((order.take (2 * top_k)).filter (entity_matches ents query_type)).map
          (fun i => (ents.getD i ("", false)).1)).take top_k) ∧
    (∀ (sims : List ℚ) (asc : List Nat),
      asc.Perm (List.range sims.length) →
      asc.Pairwise (fun i j => sims.getD i 0 ≤ sims.getD j 0) →
      asc.reverse.Perm (List.range sims.length) ∧
      asc.reverse.Pairwise (fun i j => sims.getD j 0 ≤ sims.getD i 0)) ∧
    (∀ (sims : List ℚ) (ents : List (String × Bool)) (query_type : String) (top_k : Nat),
      search_entities sims ents query_type top_k =
        search_entities_from (argsort_desc sims) ents query_type top_k) ∧
    (∀ sims : List ℚ,
      (List.insertionSort (argLE sims) (List.range sims.length)).Perm
        (List.range sims.length) ∧
      (List.insertionSort (argLE sims) (List.range sims.length)).Pairwise
        (fun i j => sims.getD i 0 ≤ sims.getD j 0)) ∧
    search_entities [mkRat 1 2, mkRat 1 2] [("aa", true), ("bb", true)] "character" 2 =
      ["bb", "aa"] := by
  refine ⟨?_, ?_, fun _ _ _ _ => rfl, ?_, by decide⟩
  · intro ents query_type top_k order
    rcases Nat.eq_zero_or_pos top_k with hk | hk
    · subst hk
      simp [search_entities_from, search_collect]
    · unfold search_entities_from
      rw [search_collect_eq ents query_type top_k _ [] (by simpa using hk)]
      rw [Nat.mul_comm 2 top_k]
      simp
  · intro sims asc hperm hasc
    exact ⟨(List.reverse_perm asc).trans hperm, List.pairwise_reverse.mpr hasc⟩
  · intro sims
    refine ⟨List.perm_insertionSort _ _, ?_⟩
    have hs := List.sorted_insertionSort (argLE sims) (List.range sims.length)
    refine hs.imp ?_
    intro a b hab
    rcases hab with h | ⟨h, _⟩
    · exact le_of_lt h
    · exact le_of_eq h

/-- Witness for `search_entities_spec`: its ranking-transfer part applies to
the concrete ascending order of the two-entity tie input. -/
theorem search_entities_spec_witness :
    (([0, 1] : List Nat)).reverse.Pairwise
      (fun i j => ([mkRat 1 2, mkRat 1 2] : List ℚ).getD j 0 ≤
        ([mkRat 1 2, mkRat 1 2] : List ℚ).getD i 0) :=
  (search_entities_spec.2.1 [mkRat 1 2, mkRat 1 2] [0, 1] (by decide) (by decide)).2

/-- Counterexample to claim C3 as stated: two character entities with equal
similarity are returned with the larger original index first, not the
smaller one. On this two-element array numpy computes `argsort` by its
stable insertion sort, giving the ascending order 0, 1, so the reversal
ranks entity 1 first, exactly as the executable instantiation does. -/
theorem search_entities_tie_last_seen_first :
    search_entities [mkRat 1 2, mkRat 1 2] [("aa", true), ("bb", true)] "character" 2 =
      ["bb", "aa"] ∧
    (["bb", "aa"] : List String) ≠ ["aa", "bb"] := by
  constructor <;> decide

/-- Similarity row used by the starvation instance of claim C10. -/
def simsC10 : List ℚ := [mkRat 9 10, mkRat 4 5, mkRat 1 10]

/-- Entity index used by the starvation instance of claim C10: two
non-characters rank above the single character. -/
def entsC10 : List (String × Bool) := [("n1", false), ("n2", false), ("ch", true)]

/-- Claim C10. With `top_k = 1`, only the two highest-similarity candidates
are examined; both are non-characters, so the character query returns
fewer than `top_k` results even though the index holds a character. -/
theorem search_entities_overfetch_starves :
    search_entities simsC10 entsC10 "character" 1 = [] ∧
    (search_entities simsC10 entsC10 "character" 1).length < 1 ∧
    1 ≤ entsC10.countP (fun p => p.2) := by
  refine ⟨by decide, by decide, by decide⟩

/-! ## Query decomposition (retrieval_agent.py, RetrievalAgent.decompose_query)

The Gemini collaborator is external: `GenRaw` models the outcome of
`GeminiClient.generate` (an exception after the retry budget, or returned
text), and `generate_json` is embedded with the JSON parser abstracted as
a function, matching gemini_client.py lines 87-104 where a response that
fails to parse yields the empty object rather than an exception. -/

/-- Decomposed sub-query (models/schema.py `SubQuery`). -/
structure SubQuery where
  text : String
  type : String
  priority : Int := 1
deriving Repr, DecidableEq

/-- Priority order used by `sorted(subqueries, key=lambda x: x.priority)`. -/
def sqLE (a b : SubQuery) : Prop := a.priority ≤ b.priority

instance sqLE.decidableRel : DecidableRel sqLE := fun a b =>
  inferInstanceAs (Decidable (a.priority ≤ b.priority))

instance sqLE.isTotal : IsTotal SubQuery sqLE :=
  ⟨fun a b => Int.le_total a.priority b.priority⟩

instance sqLE.isTrans : IsTrans SubQuery sqLE :=
  ⟨fun _ _ _ hab hbc => le_trans hab hbc⟩

/-- Outcome of the external `GeminiClient.generate` call: an exception once
the retry budget is exhausted, or a returned response text. -/
inductive GenRaw where
  | raised
  | returned (s : String)

/-- Structured decomposition response: the `subqueries` list read through
`result.get` with default empty; each raw item is `some` sub-query when the
pydantic construction `SubQuery(**sq_data)` succeeds and `none` when it
raises. -/
structure DecompObj where
  subqueries : List (Option SubQuery) := []

/-- Embedding of `GeminiClient.generate_json` for decomposition calls
(gemini_client.py lines 68-104): a raised generation propagates, while a
response text that the external JSON parser rejects becomes the empty
object. -/
def generate_json_decomp (parse : String → Option DecompObj) : GenRaw → Option DecompObj
  | .raised => none
  | .returned s => some ((parse s).getD ⟨[]⟩)

/-- Embedding of `RetrievalAgent.decompose_query` (retrieval_agent.py lines
113-142): on a raised generation the whole query becomes one character-kind
sub-query at priority 1; otherwise invalid items are skipped and the valid
sub-queries are returned sorted ascending by priority. The embedding is a
total function, so decomposition never raises. -/
def decompose_query (query : String) (g : Option DecompObj) : List SubQuery :=
  match g with
  | none => [{ text := query, type := "character", priority := 1 }]
  | some o => List.insertionSort sqLE (o.subqueries.filterMap id)

/-- Claim C4 (amended). Decomposition always returns a list sorted ascending
by priority that is a permutation of the validly parsed sub-queries; a
raised generation call yields exactly the one-element whole-query fallback;
but an unparsable structured response reaches `decompose_query` as the
empty object (gemini_client.py line 104) and therefore yields the empty
list, not the fallback. -/
theorem decompose_query_spec :
    (∀ (query : String) (g : Option DecompObj),
      (decompose_query query g).Pairwise (fun a b => a.priority ≤ b.priority)) ∧
    (∀ (query : String) (o : DecompObj),
      (decompose_query query (some o)).Perm (o.subqueries.filterMap id)) ∧
    (∀ (query : String) (parse : String → Option DecompObj),
      decompose_query query (generate_json_decomp parse .raised) =
        [{ text := query, type := "character", priority := 1 }]) ∧
    (∀ (query : String) (parse : String → Option DecompObj) (s : String),
      parse s = none →
      decompose_query query (generate_json_decomp parse (.returned s)) = []) := by
  refine ⟨?_, ?_, fun _ _ => rfl, ?_⟩
  · intro query g
    cases g with
    | none => simp [decompose_query]
    | some o => exact List.sorted_insertionSort sqLE (o.subqueries.filterMap id)
  · intro query o
    exact List.perm_insertionSort sqLE (o.subqueries.filterMap id)
  · intro query parse s hs
    simp [decompose_query, generate_json_decomp, hs, List.insertionSort]

/-- Witness for `decompose_query_spec`: its unparsable-response part applies
to a parser that rejects the concrete text `raw`. -/
theorem decompose_query_spec_witness :
    decompose_query "qq" (generate_json_decomp (fun _ => none) (.returned "raw")) = [] :=
  decompose_query_spec.2.2.2 "qq" (fun _ => none) "raw" rfl

/-- Counterexample to claim C4 as stated: a structured response that cannot
be parsed does not produce the one-element whole-query fallback; it
produces the empty list. -/
theorem decompose_unparsable_gives_empty :
    decompose_query "qq" (generate_json_decomp (fun _ => none) (.returned "oops")) = [] ∧
    ([] : List SubQuery) ≠ [{ text := "qq", type := "character", priority := 1 }] := by
  constructor
  · rfl
  · decide

/-! ## Reflection and the retrieval loop (retrieval_agent.py lines 279-377) -/

/-- Raw `new_subquery` object of a reflection response: its `text` field
(empty when absent) and the outcome of the pydantic construction. -/
structure NewSqData where
  text : String := ""
  construct : Option SubQuery := none

/-- Structured reflection response: `is_sufficient` read with default true
and the optional `new_subquery` object. A response that fails to parse is
the empty object, in which every field takes its default. -/
structure ReflObj where
  is_sufficient : Option Bool := none
  new_subquery : Option NewSqData := none

/-- Embedding of `RetrievalAgent.reflect_and_iterate` (lines 304-322): a
raised generation call is caught and treated as sufficiency; an
insufficient verdict yields the new sub-query only when its text is
non-empty and its construction succeeds, and otherwise also falls back to
sufficiency. -/
def reflect_and_iterate (g : Option ReflObj) : Bool × Option SubQuery :=
  match g with
  | none => (true, none)
  | some o =>
    if o.is_sufficient.getD true then (true, none)
    else
      match o.new_subquery with
      | none => (true, none)
      | some nsq =>
        if nsq.text = "" then (true, none)
        else
          match nsq.construct with
          | some sq => (false, some sq)
          | none => (true, none)

/-- Reflection loop of `RetrievalAgent.retrieve` (lines 355-374): at most
`remaining` rounds run; a sufficient verdict breaks the loop, an
insufficient one appends the bundle fetched for the new sub-query. The
collaborator behaviour per round is the `oracle`, the per-sub-query
retrieval `retrieve_subquery` is the abstract `fetch`, and the second
component counts the reflection calls performed. -/
def retrieve_loop {β : Type} (oracle : Nat → Option ReflObj) (fetch : SubQuery → β) :
    Nat → Nat → List β → List β × Nat
  | _, 0, acc => (acc, 0)
  | round, remaining + 1, acc =>
    let step := reflect_and_iterate (oracle round)
    if step.1 then (acc, 1)
    else
      let acc2 := match step.2 with
        | some sq => acc ++ [fetch sq]
        | none => acc
      let r := retrieve_loop oracle fetch (round + 1) remaining acc2
      (r.1, r.2 + 1)

/-- Embedding of `RetrievalAgent.retrieve` (lines 324-377): decompose, fetch
one bundle per initial sub-query, then run the reflection loop. -/
def retrieve {β : Type} (oracle : Nat → Option ReflObj) (decomp : Option DecompObj)
    (query : String) (fetch : SubQuery → β) (max_iterations : Nat) : List β × Nat :=
  retrieve_loop oracle fetch 0 max_iterations ((decompose_query query decomp).map fetch)

theorem retrieve_loop_rounds_le {β : Type} (oracle : Nat → Option ReflObj)
    (fetch : SubQuery → β) :
    ∀ (remaining round : Nat) (acc : List β),
      (retrieve_loop oracle fetch round remaining acc).2 ≤ remaining := by
  intro remaining
  induction remaining with
  | zero => intro round acc; simp [retrieve_loop]
  | succ n ih =>
    intro round acc
    by_cases h : (reflect_and_iterate (oracle round)).1
    · simp [retrieve_loop, h]
    · simp only [retrieve_loop, h, Bool.false_eq_true, if_false]
      exact Nat.add_le_add_right (ih (round + 1) _) 1

theorem retrieve_loop_extends {β : Type} (oracle : Nat → Option ReflObj)
    (fetch : SubQuery → β) :
    ∀ (remaining round : Nat) (acc : List β),
      ∃ extra, (retrieve_loop oracle fetch round remaining acc).1 = acc ++ extra := by
  intro remaining
  induction remaining with
  | zero => intro round acc; exact ⟨[], by simp [retrieve_loop]⟩
  | succ n ih =>
    intro round acc
    by_cases h : (reflect_and_iterate (oracle round)).1
    · exact ⟨[], by simp [retrieve_loop, h]⟩
    · cases hsq : (reflect_and_iterate (oracle round)).2 with
      | none =>
        obtain ⟨extra, he⟩ := ih (round + 1) acc
        exact ⟨extra, by simp [retrieve_loop, h, hsq, he]⟩
      | some sq =>
        obtain ⟨extra, he⟩ := ih (round + 1) (acc ++ [fetch sq])
        refine ⟨[fetch sq] ++ extra, ?_⟩
        simp only [retrieve_loop, h, Bool.false_eq_true, if_false, hsq]
        rw [he, List.append_assoc]

theorem retrieve_loop_stops_on_raise {β : Type} (oracle : Nat → Option ReflObj)
    (fetch : SubQuery → β) :
    ∀ (remaining round : Nat) (acc : List β) (k : Nat), round ≤ k → oracle k = none →
      (retrieve_loop oracle fetch round remaining acc).2 ≤ k + 1 - round := by
  intro remaining
  induction remaining with
  | zero => intro round acc k h1 _; simp [retrieve_loop]
  | succ n ih =>
    intro round acc k h1 h2
    by_cases h : (reflect_and_iterate (oracle round)).1
    · simp only [retrieve_loop, h, if_true]
      omega
    · have hne : round ≠ k := by
        intro hrk
        rw [hrk, h2] at h
        exact h rfl
      simp only [retrieve_loop, h, Bool.false_eq_true, if_false]
      have hrec := ih (round + 1) (match (reflect_and_iterate (oracle round)).2 with
        | some sq => acc ++ [fetch sq]
        | none => acc) k (by omega) h2
      omega

/-- Claim C2. For every collaborator behaviour, `retrieve` performs at most
`max_iterations` reflection rounds and returns the initially fetched
bundles extended in place by the bundles of the reflection rounds; whenever
the reflection call of round k raises, the loop ends there, so at most
k + 1 rounds happen. -/
theorem retrieve_spec (β : Type) (oracle : Nat → Option ReflObj)
    (decomp : Option DecompObj) (query : String) (fetch : SubQuery → β)
    (max_iterations : Nat) :
    (retrieve oracle decomp query fetch max_iterations).2 ≤ max_iterations ∧
    (∃ extra, (retrieve oracle decomp query fetch max_iterations).1 =
      (decompose_query query decomp).map fetch ++ extra) ∧
    (∀ k, oracle k = none →
      (retrieve oracle decomp query fetch max_iterations).2 ≤ k + 1) := by
  refine ⟨retrieve_loop_rounds_le oracle fetch max_iterations 0 _,
    retrieve_loop_extends oracle fetch max_iterations 0 _, ?_⟩
  intro k hk
  have := retrieve_loop_stops_on_raise oracle fetch max_iterations 0
    ((decompose_query query decomp).map fetch) k (Nat.zero_le k) hk
  simpa using this

/-- Witness for `retrieve_spec`: a collaborator whose reflection call always
raises ends the loop after the first round. -/
theorem retrieve_spec_witness :
    (retrieve (fun _ => none) none "qq" (fun _ => (0 : Nat)) 3).2 ≤ 0 + 1 :=
  (retrieve_spec Nat (fun _ => none) none "qq" (fun _ => 0) 3).2.2 0 rfl

/-! ## Cache eviction (memory_manager.py, MemoryManager.clear_old_cache) -/

/-- Python slice `xs[-k:]`: the empty negative offset `-0` denotes the whole
list, otherwise the last k elements. -/
def python_take_last {α : Type} (k : Nat) (l : List α) : List α :=
  if k = 0 then l else l.drop (l.length - k)

/-- Embedding of `MemoryManager.clear_old_cache` (memory_manager.py lines
200-210): when the cache holds more than `max_cache_size` entries, rebuild
it from the slice `cache_items[-max_cache_size:]` of its insertion-ordered
items. -/
def clear_old_cache {β : Type} (max_cache_size : Nat) (cache : List (String × β)) :
    List (String × β) :=
  if max_cache_size < cache.length then python_take_last max_cache_size cache else cache

/-- Claim C7 (amended). For every positive `max_size`, an over-full cache is
cut down to exactly its `max_size` most recently inserted entries, evicting
oldest-first; on the concrete five-entry cache A B C D E with `max_size`
two, only D and E remain. -/
theorem clear_old_cache_spec :
    (∀ (β : Type) (cache : List (String × β)) (m : Nat), 1 ≤ m → m < cache.length →
      clear_old_cache m cache = cache.drop (cache.length - m) ∧
      (clear_old_cache m cache).length = m) ∧
    clear_old_cache 2 [("A", (0 : Nat)), ("B", 1), ("C", 2), ("D", 3), ("E", 4)] =
      [("D", 3), ("E", 4)] := by
  refine ⟨?_, by decide⟩
  intro β cache m h1 h2
  have hm0 : m ≠ 0 := by omega
  refine ⟨by simp [clear_old_cache, python_take_last, h2, hm0], ?_⟩
  simp only [clear_old_cache, python_take_last, if_pos h2, if_neg hm0, List.length_drop]
  omega

/-- Witness for `clear_old_cache_spec`: its general part applies to a
two-entry cache with `max_size` one. -/
theorem clear_old_cache_spec_witness :
    clear_old_cache 1 [("A", (0 : Nat)), ("B", 1)] = [("B", 1)] := by
  have h := (clear_old_cache_spec.1 Nat [("A", 0), ("B", 1)] 1 (by decide) (by decide)).1
  rw [h]
  rfl

/-- Counterexample to claim C7 as stated: with `max_size` zero, the Python
slice `cache_items[-0:]` is the whole item list, so a non-empty cache is
left untouched instead of being emptied. -/
theorem clear_old_cache_zero_keeps_all :
    clear_old_cache 0 [("aa", (0 : Nat))] = [("aa", 0)] ∧
    ([("aa", (0 : Nat))] : List (String × Nat)) ≠ [] := by
  constructor <;> decide

/-! ## Community detection (community_detection.py, CommunityDetector)

The graph node kinds are the external `is_char` lookup (true exactly on
nodes typed character) and the summary generation, which wraps the Gemini
collaborator with a templated fallback, is the abstract `summarize`. -/

/-- Processed community record (community_detection.py lines 192-198). -/
structure CommunityData where
  id : String
  members : List String
  size : Nat
  type : String
  summary : String
deriving Repr, DecidableEq

/-- Embedding of `CommunityDetector.classify_community` (lines 80-104):
count character and non-character members and return character-focused
exactly when the character count strictly exceeds the other. -/
def classify_community (is_char : String → Bool) (community : List String) : String :=
  if community.countP (fun n => !is_char n) < community.countP is_char
  then "character-focused" else "event-focused"

/-- Community record built for the community at detection index i
(community_detection.py lines 182-198). -/
def make_community (is_char : String → Bool)
    (summarize : String → List String → String → String) (i : Nat)
    (community : List String) : CommunityData :=
  let community_id := "community_" ++ toString i
  let community_type := classify_community is_char community
  { id := community_id, members := community, size := community.length,
    type := community_type, summary := summarize community_id community community_type }

/-- Enumeration loop of `process_communities` (lines 178-201): the counter i
follows the detection order and communities below `min_size` are skipped. -/
def process_communities_go (is_char : String → Bool)
    (summarize : String → List String → String → String) (min_size : Nat) :
    Nat → List (List String) → List CommunityData
  | _, [] => []
  | i, c :: rest =>
    if c.length < min_size then process_communities_go is_char summarize min_size (i + 1) rest
    else make_community is_char summarize i c ::
      process_communities_go is_char summarize min_size (i + 1) rest

/-- Embedding of `CommunityDetector.process_communities`. -/
def process_communities (is_char : String → Bool)
    (summarize : String → List String → String → String)
    (communities : List (List String)) (min_size : Nat) : List CommunityData :=
  process_communities_go is_char summarize min_size 0 communities

theorem process_communities_go_eq (is_char : String → Bool)
    (summarize : String → List String → String → String) (min_size : Nat) :
    ∀ (comms : List (List String)) (i : Nat),
      process_communities_go is_char summarize min_size i comms =
        ((List.enumFrom i comms).filter (fun p => decide (min_size ≤ p.2.length))).map
          (fun p => make_community is_char summarize p.1 p.2) := by
  intro comms
  induction comms with
  | nil => intro i; rfl
  | cons c rest ih =>
    intro i
    by_cases h : c.length < min_size
    · have hd : decide (min_size ≤ c.length) = false := by simp; omega
      simp only [process_communities_go, if_pos h, List.enumFrom_cons, List.filter_cons, hd,
        Bool.false_eq_true, if_false]
      exact ih (i + 1)
    · have hd : decide (min_size ≤ c.length) = true := by simp; omega
      simp only [process_communities_go, if_neg h, List.enumFrom_cons, List.filter_cons, hd,
        if_true, List.map_cons]
      rw [ih (i + 1)]

theorem enum_filter_map_snd {α : Type} (q : α → Bool) :
    ∀ (l : List α) (i : Nat),
      ((List.enumFrom i l).filter (fun p => q p.2)).map Prod.snd = l.filter q := by
  intro l
  induction l with
  | nil => intro i; rfl
  | cons x rest ih =>
    intro i
    by_cases h : q x
    · simp only [List.enumFrom_cons, List.filter_cons, h, if_true, List.map_cons]
      rw [ih (i + 1)]
    · simp only [List.enumFrom_cons, List.filter_cons, h, Bool.false_eq_true, if_false]
      exact ih (i + 1)

/-- Claim C8. `process_communities` keeps exactly the detected communities
of size at least `min_size`, in detection order, each carrying the id
`community_i` where i is its index in the detection order (ids are
assigned by the counter that advances through every detected community);
in particular the member lists of the output are the size-filtered
detection list in order. -/
theorem process_communities_spec (is_char : String → Bool)
    (summarize : String → List String → String → String)
    (comms : List (List String)) (min_size : Nat) :
    process_communities is_char summarize comms min_size =
      ((comms.enum.filter (fun p => decide (min_size ≤ p.2.length))).map
        (fun p => make_community is_char summarize p.1 p.2)) ∧
    (process_communities is_char summarize comms min_size).map (fun d => d.members) =
      comms.filter (fun c => decide (min_size ≤ c.length)) ∧
    (process_communities is_char summarize comms min_size).map (fun d => d.id) =
      (comms.enum.filter (fun p => decide (min_size ≤ p.2.length))).map
        (fun p => "community_" ++ toString p.1) := by
  have h0 := process_communities_go_eq is_char summarize min_size comms 0
  refine ⟨h0, ?_, ?_⟩
  · rw [show process_communities is_char summarize comms min_size =
        process_communities_go is_char summarize min_size 0 comms from rfl, h0,
      List.map_map]
    have : ((fun d => d.members) ∘ fun p : Nat × List String =>
        make_community is_char summarize p.1 p.2) = Prod.snd := by
      funext p
      rfl
    rw [this]
    exact enum_filter_map_snd (fun c => decide (min_size ≤ c.length)) comms 0
  · rw [show process_communities is_char summarize comms min_size =
        process_communities_go is_char summarize min_size 0 comms from rfl, h0,
      List.map_map]
    rfl

/-- Claim C9. `classify_community` is the pure kind-count comparison:
character-focused exactly when character-kind members strictly outnumber
the rest, event-focused otherwise; three characters and one non-character
classify as character-focused and a one-one tie as event-focused. -/
theorem classify_community_spec :
    (∀ (is_char : String → Bool) (community : List String),
      classify_community is_char community =
        (if community.countP (fun n => !is_char n) < community.countP is_char
         then "character-focused" else "event-focused") ∧
      (classify_community is_char community = "character-focused" ↔
        community.countP (fun n => !is_char n) < community.countP is_char)) ∧
    classify_community (fun s => decide (s ≠ "nn")) ["c1", "c2", "c3", "nn"] =
      "character-focused" ∧
    classify_community (fun s => decide (s ≠ "nn")) ["c1", "nn"] = "event-focused" := by
  refine ⟨?_, by decide, by decide⟩
  intro is_char community
  refine ⟨rfl, ?_⟩
  by_cases h : community.countP (fun n => !is_char n) < community.countP is_char
  · simp [classify_community, h]
  · simp only [classify_community, if_neg h]
    constructor
    · intro heq
      exact absurd heq (by decide)
    · intro hlt
      exact absurd hlt h

/-- Witness for `classify_community_spec`: its classification equivalence
applies to the concrete three-character community. -/
theorem classify_community_spec_witness :
    (["c1", "c2", "c3", "nn"].countP (fun n => !(decide (n ≠ "nn")))) <
      (["c1", "c2", "c3", "nn"].countP (fun s => decide (s ≠ "nn"))) :=
  ((classify_community_spec.1 (fun s => decide (s ≠ "nn")) ["c1", "c2", "c3", "nn"]).2).mp
    (by decide)

end PaimonRoleRag
